import Mathlib

/-!
Shallow embedding of the real-time chat core of the repository:
`app/services/websocket_manager.py` (class ConnectionManager),
`app/services/presence_service.py` (class PresenceService), and the
real-time glue of `app/api/chat.py` (the websocket endpoint's inbound
frame dispatch and the mark-read endpoint's broadcast call).

Python dicts are modelled as association lists over `Int` keys (Python
ints are unbounded and signed); Python sets as duplicate-free lists
(`List.insert` / `filter` mirror `set.add` / `set.discard`).  The wall
clock is an explicit `now : Nat` parameter wherever the code reads
`datetime.now`.  Transport sends that may raise are modelled by an
oracle `f : Int → Bool` saying whether the send to a given user's
connection raises; the `try/except` around each send becomes a branch
on that oracle, and the except-branch runs `disconnect` exactly as the
code does.  Successful sends are logged as `(user_id, handle)` pairs.
-/

namespace ChatCore

/-- Python dict with `Int` keys, as an association list. -/
abbrev Dict (α : Type) := List (Int × α)

/-- `d[k]` lookup returning `none` when the key is absent. -/
def dictGet {α : Type} : Dict α → Int → Option α
  | [], _ => none
  | (k', v) :: rest, k => if k = k' then some v else dictGet rest k

/-- `d[k] = v`: update in place when the key exists, else append. -/
def dictSet {α : Type} : Dict α → Int → α → Dict α
  | [], k, v => [(k, v)]
  | (k', v') :: rest, k, v =>
      if k = k' then (k, v) :: rest else (k', v') :: dictSet rest k v

/-- `del d[k]`: remove the entry for `k`. -/
def dictDel {α : Type} (m : Dict α) (k : Int) : Dict α :=
  m.filter (fun p => ! (p.1 == k))

/-- `list(d.keys())`. -/
def dictKeys {α : Type} (m : Dict α) : List Int :=
  m.map (·.1)

/-- Python `set.discard`: remove the element if present. -/
def setDiscard (l : List Int) (x : Int) : List Int :=
  l.filter (fun y => ! (y == x))

/-! ## Presence Store (`app/services/presence_service.py`) -/

/-- A stored presence JSON object: `online`, `last_seen`, `connected_at`
(the latter two `none` when the key is absent from the dict). -/
structure PresenceRecord where
  online : Bool
  last_seen : Option Nat
  connected_at : Option Nat
  deriving DecidableEq, Repr

/-- State of `PresenceService`.  `use_redis` is fixed at construction
(Redis reachable or not); the Redis backend keeps per-user records with
their `setex` TTL plus the `presence:online_users` set, the fallback
keeps a plain in-memory dict `_presence_data`. -/
structure PresenceState where
  use_redis : Bool
  redis_store : Dict (PresenceRecord × Nat)
  redis_online : List Int
  mem_store : Dict PresenceRecord
  deriving DecidableEq, Repr

def initPresence (use_redis : Bool) : PresenceState :=
  { use_redis := use_redis, redis_store := [], redis_online := [], mem_store := [] }

/-- `set_user_online`: write `{online: true, last_seen: now, connected_at: now}`
(TTL 300 and `sadd` to the online set under Redis; plain store otherwise). -/
def set_user_online (p : PresenceState) (now : Nat) (u : Int) : PresenceState :=
  let r : PresenceRecord :=
    { online := true, last_seen := some now, connected_at := some now }
  if p.use_redis then
    { p with
      redis_store := dictSet p.redis_store u (r, 300),
      redis_online := p.redis_online.insert u }
  else
    { p with mem_store := dictSet p.mem_store u r }

/-- `set_user_offline`: under Redis, unconditionally `setex` a fresh
`{online: false, last_seen: now}` record (TTL 86400) and `srem` from the
online set; in the in-memory fallback, update the two fields only when a
record for `u` already exists. -/
def set_user_offline (p : PresenceState) (now : Nat) (u : Int) : PresenceState :=
  if p.use_redis then
    let r : PresenceRecord :=
      { online := false, last_seen := some now, connected_at := none }
    { p with
      redis_store := dictSet p.redis_store u (r, 86400),
      redis_online := setDiscard p.redis_online u }
  else
    match dictGet p.mem_store u with
    | some r =>
        { p with
          mem_store :=
            dictSet p.mem_store u { r with online := false, last_seen := some now } }
    | none => p

/-- The default returned when no record exists:
`{"online": False, "last_seen": None}`. -/
def defaultPresence : PresenceRecord :=
  { online := false, last_seen := none, connected_at := none }

/-- `get_user_presence`: stored record, or the default. -/
def get_user_presence (p : PresenceState) (u : Int) : PresenceRecord :=
  if p.use_redis then
    match dictGet p.redis_store u with
    | some (r, _) => r
    | none => defaultPresence
  else
    (dictGet p.mem_store u).getD defaultPresence

/-- `is_user_online`. -/
def is_user_online (p : PresenceState) (u : Int) : Bool :=
  (get_user_presence p u).online

/-- `update_last_seen`: refresh `last_seen` only on an existing record. -/
def update_last_seen (p : PresenceState) (now : Nat) (u : Int) : PresenceState :=
  if p.use_redis then
    match dictGet p.redis_store u with
    | some (r, _) =>
        { p with
          redis_store := dictSet p.redis_store u ({ r with last_seen := some now }, 300) }
    | none => p
  else
    match dictGet p.mem_store u with
    | some r =>
        { p with mem_store := dictSet p.mem_store u { r with last_seen := some now } }
    | none => p

/-! ## Connection Registry state (`ConnectionManager.__init__`) -/

/-- The manager's three dicts plus the presence service it calls into.
Connection handles are identified by an `Int` (the WebSocket object's
identity); `active_connections` maps `user_id` to its handle. -/
structure SysState where
  active_connections : Dict Int
  channel_subscriptions : Dict (List Int)
  user_subscriptions : Dict (List Int)
  presence : PresenceState
  deriving DecidableEq, Repr

def initState (use_redis : Bool) : SysState :=
  { active_connections := [], channel_subscriptions := [],
    user_subscriptions := [], presence := initPresence use_redis }

/-- Channel's subscriber set (empty when the channel key is absent). -/
def subsOf (s : SysState) (c : Int) : List Int :=
  (dictGet s.channel_subscriptions c).getD []

/-- User's subscribed-channel set (empty when the user key is absent). -/
def chansOf (s : SysState) (u : Int) : List Int :=
  (dictGet s.user_subscriptions u).getD []

/-- `get_connected_users`: `list(self.active_connections.keys())`. -/
def get_connected_users (s : SysState) : List Int :=
  dictKeys s.active_connections

/-- `is_user_connected`: `user_id in self.active_connections`. -/
def is_user_connected (s : SysState) (u : Int) : Bool :=
  (dictGet s.active_connections u).isSome

/-- The loop body of `disconnect`'s subscription cleanup:
`for channel_id in self.user_subscriptions[user_id]: if channel_id in
self.channel_subscriptions: self.channel_subscriptions[channel_id].discard(user_id)`. -/
def removeUserFromChannels (u : Int) : Dict (List Int) → List Int → Dict (List Int)
  | cs, [] => cs
  | cs, c :: rest =>
      let cs' :=
        match dictGet cs c with
        | some users => dictSet cs c (setDiscard users u)
        | none => cs
      removeUserFromChannels u cs' rest

/-- `ConnectionManager.disconnect`: drop the handle if present, mark the
user offline in the presence store unconditionally, then remove the user
from each channel listed in its reverse index and delete that index entry. -/
def disconnect (s : SysState) (now : Nat) (user_id : Int) : SysState :=
  let ac :=
    if (dictGet s.active_connections user_id).isSome then
      dictDel s.active_connections user_id
    else s.active_connections
  let pres := set_user_offline s.presence now user_id
  match dictGet s.user_subscriptions user_id with
  | some chans =>
      { active_connections := ac,
        channel_subscriptions := removeUserFromChannels user_id s.channel_subscriptions chans,
        user_subscriptions := dictDel s.user_subscriptions user_id,
        presence := pres }
  | none =>
      { s with active_connections := ac, presence := pres }

/-- The shared send loop of `broadcast_to_channel` and
`broadcast_presence_change`: walk a snapshot of recipients, skip the
excluded user and users with no live connection, attempt the send on the
current handle, and on a raised send run `self.disconnect(user_id)`.
Successful sends are accumulated as `(user, handle)` pairs. -/
def broadcastLoop (now : Nat) (f : Int → Bool) (exclude_user : Option Int) :
    SysState → List (Int × Int) → List Int → SysState × List (Int × Int)
  | st, acc, [] => (st, acc)
  | st, acc, u :: rest =>
      if exclude_user = some u then
        broadcastLoop now f exclude_user st acc rest
      else
        match dictGet st.active_connections u with
        | none => broadcastLoop now f exclude_user st acc rest
        | some h =>
            if f u then
              broadcastLoop now f exclude_user (disconnect st now u) acc rest
            else
              broadcastLoop now f exclude_user st (acc ++ [(u, h)]) rest

/-- `broadcast_to_channel`: return immediately when the channel has no
entry, else loop over a copy of its subscriber set. -/
def broadcast_to_channel (s : SysState) (now : Nat) (f : Int → Bool)
    (channel_id : Int) (exclude_user : Option Int) : SysState × List (Int × Int) :=
  match dictGet s.channel_subscriptions channel_id with
  | none => (s, [])
  | some subs => broadcastLoop now f exclude_user s [] subs

/-- `broadcast_presence_change`: send to a copy of all connected users,
excluding the user whose presence changed. -/
def broadcast_presence_change (s : SysState) (now : Nat) (f : Int → Bool)
    (user_id : Int) : SysState × List (Int × Int) :=
  broadcastLoop now f (some user_id) s [] (dictKeys s.active_connections)

/-- `ConnectionManager.connect`: store (overwriting) the handle, mark the
user online in the presence store, then broadcast the presence change. -/
def connect (s : SysState) (now : Nat) (f : Int → Bool)
    (websocket : Int) (user_id : Int) : SysState :=
  let s1 := { s with active_connections := dictSet s.active_connections user_id websocket }
  let s2 := { s1 with presence := set_user_online s1.presence now user_id }
  (broadcast_presence_change s2 now f user_id).1

/-- `subscribe_to_channel`: create the channel set if absent, add the
user to it, create the user's reverse set if absent, add the channel. -/
def subscribe_to_channel (s : SysState) (user_id : Int) (channel_id : Int) : SysState :=
  let cs :=
    match dictGet s.channel_subscriptions channel_id with
    | none => dictSet s.channel_subscriptions channel_id (List.insert user_id [])
    | some users => dictSet s.channel_subscriptions channel_id (List.insert user_id users)
  let us :=
    match dictGet s.user_subscriptions user_id with
    | none => dictSet s.user_subscriptions user_id (List.insert channel_id [])
    | some chans => dictSet s.user_subscriptions user_id (List.insert channel_id chans)
  { s with channel_subscriptions := cs, user_subscriptions := us }

/-- `unsubscribe_from_channel`: discard on each side when the key exists. -/
def unsubscribe_from_channel (s : SysState) (user_id : Int) (channel_id : Int) : SysState :=
  let cs :=
    match dictGet s.channel_subscriptions channel_id with
    | none => s.channel_subscriptions
    | some users => dictSet s.channel_subscriptions channel_id (setDiscard users user_id)
  let us :=
    match dictGet s.user_subscriptions user_id with
    | none => s.user_subscriptions
    | some chans => dictSet s.user_subscriptions user_id (setDiscard chans channel_id)
  { s with channel_subscriptions := cs, user_subscriptions := us }

/-! ## Broadcast Engine entry points and chat API glue (`app/api/chat.py`) -/

/-- The WebSocket payload of a new message; the broadcast only inspects
`message_data.get("sender_id")` (`none` when the key is absent). -/
structure MsgPayload where
  sender_id : Option Int
  deriving DecidableEq, Repr

/-- `broadcast_new_message`: serialize and fan out, excluding
`message_data.get("sender_id")`. -/
def broadcast_new_message (s : SysState) (now : Nat) (f : Int → Bool)
    (message_data : MsgPayload) (channel_id : Int) : SysState × List (Int × Int) :=
  broadcast_to_channel s now f channel_id message_data.sender_id

/-- The `read_receipt` frame payload (type discriminator fixed). -/
structure ReadReceiptEvent where
  message_id : Int
  user_id : Int
  timestamp : Nat
  deriving DecidableEq, Repr

/-- `broadcast_read_receipt(message_id, user_id, channel_id)`: build the
event and fan out with `exclude_user = user_id` (the code comment reads
"Don't send to the user who read it"). -/
def broadcast_read_receipt (s : SysState) (now : Nat) (f : Int → Bool)
    (message_id : Int) (user_id : Int) (channel_id : Int) :
    SysState × List (Int × Int) × ReadReceiptEvent :=
  let event : ReadReceiptEvent :=
    { message_id := message_id, user_id := user_id, timestamp := now }
  let r := broadcast_to_channel s now f channel_id (some user_id)
  (r.1, r.2, event)

/-- A persisted message row, as far as the mark-read endpoint reads it. -/
structure MessageRec where
  id : Int
  sender_id : Int
  channel_id : Int
  is_read : Bool
  deriving DecidableEq, Repr

/-- The real-time part of `mark_message_read`: set `is_read` and call
`broadcast_read_receipt(message_id, message.sender_id, message.channel_id)`
-- the second argument passed is the message's sender id. -/
def mark_message_read (s : SysState) (now : Nat) (f : Int → Bool)
    (m : MessageRec) : MessageRec × SysState × List (Int × Int) × ReadReceiptEvent :=
  ({ m with is_read := true }, broadcast_read_receipt s now f m.id m.sender_id m.channel_id)

/-! ## Session Protocol Handler (`websocket_endpoint` inbound dispatch) -/

/-- An inbound JSON frame as the handler reads it:
`message_data.get("type")` and `message_data.get("channel_id")`. -/
structure InFrame where
  ftype : Option String
  channel_id : Option Int
  deriving DecidableEq, Repr

/-- Outbound frames emitted synchronously to the requesting connection. -/
inductive OutFrame where
  | pong
  deriving DecidableEq, Repr

/-- One iteration of the receive loop's dispatch on a parsed frame:
`subscribe_channel`/`unsubscribe_channel` act only when `channel_id` is
truthy (present and nonzero), `ping` refreshes last-seen and answers
`pong`, anything else falls through with no effect. -/
def handle_frame (s : SysState) (now : Nat) (user_id : Int) (fr : InFrame) :
    SysState × List OutFrame :=
  if fr.ftype = some "subscribe_channel" then
    match fr.channel_id with
    | some c => if c ≠ 0 then (subscribe_to_channel s user_id c, []) else (s, [])
    | none => (s, [])
  else if fr.ftype = some "unsubscribe_channel" then
    match fr.channel_id with
    | some c => if c ≠ 0 then (unsubscribe_from_channel s user_id c, []) else (s, [])
    | none => (s, [])
  else if fr.ftype = some "ping" then
    ({ s with presence := update_last_seen s.presence now user_id }, [OutFrame.pong])
  else
    (s, [])

/-! ## Reachable registry states

The states the manager's dicts can be in after any sequence of the
operations the endpoint and the collaborator-facing API can trigger. -/

inductive Reachable : SysState → Prop where
  | init (use_redis : Bool) : Reachable (initState use_redis)
  | connect {s} (now : Nat) (f : Int → Bool) (ws u : Int) :
      Reachable s → Reachable (connect s now f ws u)
  | subscribe {s} (u c : Int) :
      Reachable s → Reachable (subscribe_to_channel s u c)
  | unsubscribe {s} (u c : Int) :
      Reachable s → Reachable (unsubscribe_from_channel s u c)
  | disconnect {s} (now : Nat) (u : Int) :
      Reachable s → Reachable (disconnect s now u)

/-- The symmetric-bookkeeping invariant: the two subscription indices are
mutual inverses. -/
def Inv (s : SysState) : Prop :=
  ∀ u c : Int, u ∈ subsOf s c ↔ c ∈ chansOf s u

/-- Send oracle under which no transport send raises. -/
def noFail : Int → Bool := fun _ => false

/-! ## Dictionary and set lemmas -/

theorem dictGet_set_self {α : Type} (m : Dict α) (k : Int) (v : α) :
    dictGet (dictSet m k v) k = some v := by
  induction m with
  | nil => simp [dictSet, dictGet]
  | cons p rest ih =>
      obtain ⟨k', v'⟩ := p
      by_cases h : k = k'
      · simp [dictSet, h, dictGet]
      · simp [dictSet, h, dictGet, ih]

theorem dictGet_set_ne {α : Type} (m : Dict α) {k k'' : Int} (v : α) (h : k'' ≠ k) :
    dictGet (dictSet m k v) k'' = dictGet m k'' := by
  induction m with
  | nil => simp [dictSet, dictGet, h]
  | cons p rest ih =>
      obtain ⟨k', v'⟩ := p
      by_cases hk : k = k'
      · subst hk
        simp [dictSet, dictGet, h]
      · by_cases hk'' : k'' = k'
        · simp [dictSet, dictGet, hk, hk'']
        · simp [dictSet, dictGet, hk, hk'', ih]

theorem dictGet_del_self {α : Type} (m : Dict α) (k : Int) :
    dictGet (dictDel m k) k = none := by
  induction m with
  | nil => simp [dictDel, dictGet]
  | cons p rest ih =>
      obtain ⟨k', v'⟩ := p
      by_cases h : k' = k
      · have hb : (k' == k) = true := beq_iff_eq.mpr h
        simpa [dictDel, List.filter, hb] using ih
      · have hb : (k' == k) = false := by simpa using h
        have h' : ¬ k = k' := fun hh => h hh.symm
        simpa [dictDel, List.filter, hb, dictGet, h'] using ih

theorem dictGet_del_ne {α : Type} (m : Dict α) {k k'' : Int} (h : k'' ≠ k) :
    dictGet (dictDel m k) k'' = dictGet m k'' := by
  induction m with
  | nil => simp [dictDel, dictGet]
  | cons p rest ih =>
      obtain ⟨k', v'⟩ := p
      by_cases hk : k' = k
      · have hb : (k' == k) = true := beq_iff_eq.mpr hk
        have hk'' : ¬ k'' = k' := fun hh => h (hh.trans hk)
        simpa [dictDel, List.filter, hb, dictGet, hk''] using ih
      · have hb : (k' == k) = false := by simpa using hk
        by_cases hk'' : k'' = k'
        · simp [dictDel, List.filter, hb, dictGet, hk'']
        · simpa [dictDel, List.filter, hb, dictGet, hk''] using ih

theorem dictGet_eq_none_iff {α : Type} (m : Dict α) (k : Int) :
    dictGet m k = none ↔ k ∉ dictKeys m := by
  induction m with
  | nil => simp [dictGet, dictKeys]
  | cons p rest ih =>
      obtain ⟨k', v'⟩ := p
      by_cases h : k = k'
      · simp [dictGet, dictKeys, h]
      · simp [dictGet, dictKeys, h, ih]

theorem mem_setDiscard {l : List Int} {x y : Int} :
    x ∈ setDiscard l y ↔ x ∈ l ∧ x ≠ y := by
  simp [setDiscard, List.mem_filter]

/-! ## Characterizations of the registry operations -/

theorem subsOf_subscribe (s : SysState) (u c c' : Int) :
    subsOf (subscribe_to_channel s u c) c'
      = if c' = c then List.insert u (subsOf s c) else subsOf s c' := by
  unfold subscribe_to_channel subsOf
  cases hg : dictGet s.channel_subscriptions c with
  | none =>
      by_cases h : c' = c
      · subst h; simp [hg, dictGet_set_self]
      · simp [hg, h, dictGet_set_ne _ _ h]
  | some users =>
      by_cases h : c' = c
      · subst h; simp [hg, dictGet_set_self]
      · simp [hg, h, dictGet_set_ne _ _ h]

theorem chansOf_subscribe (s : SysState) (u c u' : Int) :
    chansOf (subscribe_to_channel s u c) u'
      = if u' = u then List.insert c (chansOf s u) else chansOf s u' := by
  unfold subscribe_to_channel chansOf
  cases hg : dictGet s.user_subscriptions u with
  | none =>
      by_cases h : u' = u
      · subst h; simp [hg, dictGet_set_self]
      · simp [hg, h, dictGet_set_ne _ _ h]
  | some chans =>
      by_cases h : u' = u
      · subst h; simp [hg, dictGet_set_self]
      · simp [hg, h, dictGet_set_ne _ _ h]

theorem subsOf_unsubscribe (s : SysState) (u c c' : Int) :
    subsOf (unsubscribe_from_channel s u c) c'
      = if c' = c then setDiscard (subsOf s c) u else subsOf s c' := by
  unfold unsubscribe_from_channel subsOf
  cases hg : dictGet s.channel_subscriptions c with
  | none =>
      by_cases h : c' = c
      · subst h; simp [hg, setDiscard]
      · simp [hg, h]
  | some users =>
      by_cases h : c' = c
      · subst h; simp [hg, dictGet_set_self]
      · simp [hg, h, dictGet_set_ne _ _ h]

theorem chansOf_unsubscribe (s : SysState) (u c u' : Int) :
    chansOf (unsubscribe_from_channel s u c) u'
      = if u' = u then setDiscard (chansOf s u) c else chansOf s u' := by
  unfold unsubscribe_from_channel chansOf
  cases hg : dictGet s.user_subscriptions u with
  | none =>
      by_cases h : u' = u
      · subst h; simp [hg, setDiscard]
      · simp [hg, h]
  | some chans =>
      by_cases h : u' = u
      · subst h; simp [hg, dictGet_set_self]
      · simp [hg, h, dictGet_set_ne _ _ h]

theorem mem_removeUserFromChannels (u : Int) :
    ∀ (L : List Int) (cs : Dict (List Int)) (c u' : Int),
      u' ∈ (dictGet (removeUserFromChannels u cs L) c).getD []
        ↔ u' ∈ (dictGet cs c).getD [] ∧ ¬(u' = u ∧ c ∈ L) := by
  intro L
  induction L with
  | nil => intro cs c u'; simp [removeUserFromChannels]
  | cons c0 rest ih =>
      intro cs c u'
      have hstep :
          ∀ c1 : Int,
            (dictGet
              (match dictGet cs c0 with
               | some users => dictSet cs c0 (setDiscard users u)
               | none => cs) c1).getD []
            = if c1 = c0 then setDiscard ((dictGet cs c0).getD []) u
              else (dictGet cs c1).getD [] := by
        intro c1
        cases hg : dictGet cs c0 with
        | none =>
            by_cases h : c1 = c0
            · subst h; simp [hg, setDiscard]
            · simp [h]
        | some users =>
            by_cases h : c1 = c0
            · subst h; simp [hg, dictGet_set_self]
            · simp [h, dictGet_set_ne _ _ h]
      rw [removeUserFromChannels]
      rw [ih _ c u', hstep c]
      by_cases h : c = c0
      · subst h
        rw [if_pos rfl]
        constructor
        · rintro ⟨hmem, _⟩
          rw [mem_setDiscard] at hmem
          exact ⟨hmem.1, fun hc => hmem.2 hc.1⟩
        · rintro ⟨hmem, hne⟩
          have hne' : u' ≠ u := fun he => hne ⟨he, List.mem_cons_self _ _⟩
          exact ⟨mem_setDiscard.mpr ⟨hmem, hne'⟩, fun hc => hne' hc.1⟩
      · rw [if_neg h]
        constructor
        · rintro ⟨hmem, hrest⟩
          refine ⟨hmem, fun hc => hrest ⟨hc.1, ?_⟩⟩
          rcases List.mem_cons.mp hc.2 with he | hm
          · exact absurd he h
          · exact hm
        · rintro ⟨hmem, hne⟩
          exact ⟨hmem, fun hc => hne ⟨hc.1, List.mem_cons.mpr (Or.inr hc.2)⟩⟩

theorem subsOf_disconnect (s : SysState) (now : Nat) (u c u' : Int) :
    u' ∈ subsOf (disconnect s now u) c
      ↔ u' ∈ subsOf s c ∧ ¬(u' = u ∧ c ∈ chansOf s u) := by
  unfold disconnect
  cases hg : dictGet s.user_subscriptions u with
  | none => simp [subsOf, chansOf, hg]
  | some chans =>
      simp only [subsOf, chansOf, hg, Option.getD_some]
      exact mem_removeUserFromChannels u chans s.channel_subscriptions c u'

theorem chansOf_disconnect (s : SysState) (now : Nat) (u u' : Int) :
    chansOf (disconnect s now u) u' = if u' = u then [] else chansOf s u' := by
  unfold disconnect
  cases hg : dictGet s.user_subscriptions u with
  | none =>
      by_cases h : u' = u
      · subst h; simp [chansOf, hg]
      · simp [chansOf, h]
  | some chans =>
      by_cases h : u' = u
      · subst h; simp [chansOf, dictGet_del_self]
      · simp [chansOf, h, dictGet_del_ne _ h]

theorem disconnect_ac_self (s : SysState) (now : Nat) (u : Int) :
    dictGet (disconnect s now u).active_connections u = none := by
  unfold disconnect
  cases hc : dictGet s.active_connections u with
  | none =>
      cases hg : dictGet s.user_subscriptions u <;> simp [hc]
  | some h =>
      cases hg : dictGet s.user_subscriptions u <;> simp [hc, dictGet_del_self]

theorem disconnect_ac_ne (s : SysState) (now : Nat) {u u' : Int} (h : u' ≠ u) :
    dictGet (disconnect s now u).active_connections u'
      = dictGet s.active_connections u' := by
  unfold disconnect
  cases hc : dictGet s.active_connections u with
  | none =>
      cases hg : dictGet s.user_subscriptions u <;> simp [hc]
  | some hdl =>
      cases hg : dictGet s.user_subscriptions u <;> simp [hc, dictGet_del_ne _ h]

theorem disconnect_ac_some {s : SysState} {now : Nat} {u x h' : Int}
    (hx : dictGet (disconnect s now u).active_connections x = some h') :
    dictGet s.active_connections x = some h' := by
  by_cases he : x = u
  · subst he; rw [disconnect_ac_self] at hx; exact absurd hx (by simp)
  · rwa [disconnect_ac_ne s now he] at hx

theorem disconnect_us_self (s : SysState) (now : Nat) (u : Int) :
    dictGet (disconnect s now u).user_subscriptions u = none := by
  unfold disconnect
  cases hg : dictGet s.user_subscriptions u with
  | none => simpa using hg
  | some chans => simp [dictGet_del_self]

theorem disconnect_presence (s : SysState) (now : Nat) (u : Int) :
    (disconnect s now u).presence = set_user_offline s.presence now u := by
  unfold disconnect
  cases hg : dictGet s.user_subscriptions u <;> simp

/-! ## Preservation of the symmetric-bookkeeping invariant -/

theorem inv_init (use_redis : Bool) : Inv (initState use_redis) := by
  intro u c
  simp [subsOf, chansOf, initState, dictGet]

theorem inv_subscribe {s : SysState} (hI : Inv s) (u c : Int) :
    Inv (subscribe_to_channel s u c) := by
  intro u' c'
  rw [show subsOf (subscribe_to_channel s u c) c'
        = if c' = c then List.insert u (subsOf s c) else subsOf s c' from
      subsOf_subscribe s u c c',
      show chansOf (subscribe_to_channel s u c) u'
        = if u' = u then List.insert c (chansOf s u) else chansOf s u' from
      chansOf_subscribe s u c u']
  by_cases hc : c' = c <;> by_cases hu : u' = u <;>
    simp [hc, hu, List.mem_insert_iff, hI u' c', hI u' c, hI u c', hI u c]

theorem inv_unsubscribe {s : SysState} (hI : Inv s) (u c : Int) :
    Inv (unsubscribe_from_channel s u c) := by
  intro u' c'
  rw [show subsOf (unsubscribe_from_channel s u c) c'
        = if c' = c then setDiscard (subsOf s c) u else subsOf s c' from
      subsOf_unsubscribe s u c c',
      show chansOf (unsubscribe_from_channel s u c) u'
        = if u' = u then setDiscard (chansOf s u) c else chansOf s u' from
      chansOf_unsubscribe s u c u']
  by_cases hc : c' = c <;> by_cases hu : u' = u <;>
    simp [hc, hu, mem_setDiscard, hI u' c', hI u' c, hI u c', hI u c]

theorem inv_disconnect {s : SysState} (hI : Inv s) (now : Nat) (u : Int) :
    Inv (disconnect s now u) := by
  intro u' c
  rw [show chansOf (disconnect s now u) u' = if u' = u then [] else chansOf s u' from
      chansOf_disconnect s now u u']
  rw [subsOf_disconnect s now u c u']
  by_cases hu : u' = u
  · subst hu
    simp only [if_pos rfl, List.not_mem_nil, iff_false, true_and, not_and, Classical.not_not]
    rw [hI u' c]
    tauto
  · simp only [if_neg hu]
    constructor
    · rintro ⟨hm, _⟩; exact (hI u' c).mp hm
    · intro hm; exact ⟨(hI u' c).mpr hm, fun hcon => hu hcon.1⟩

theorem inv_of_same_subs {s t : SysState}
    (hcs : t.channel_subscriptions = s.channel_subscriptions)
    (hus : t.user_subscriptions = s.user_subscriptions)
    (hI : Inv s) : Inv t := by
  intro u c
  simp only [subsOf, chansOf, hcs, hus]
  exact hI u c

theorem inv_broadcastLoop (now : Nat) (f : Int → Bool) (e : Option Int) :
    ∀ (L : List Int) (st : SysState) (acc : List (Int × Int)),
      Inv st → Inv (broadcastLoop now f e st acc L).1 := by
  intro L
  induction L with
  | nil => intro st acc hI; simpa [broadcastLoop] using hI
  | cons u rest ih =>
      intro st acc hI
      rw [broadcastLoop]
      by_cases he : e = some u
      · rw [if_pos he]; exact ih st acc hI
      · rw [if_neg he]
        cases hg : dictGet st.active_connections u with
        | none => exact ih st acc hI
        | some h =>
            by_cases hf : f u
            · simp only [hf, if_true]
              exact ih _ acc (inv_disconnect hI now u)
            · simp only [hf, if_false]
              exact ih st _ hI

theorem inv_connect {s : SysState} (hI : Inv s) (now : Nat) (f : Int → Bool)
    (ws u : Int) : Inv (connect s now f ws u) := by
  unfold connect broadcast_presence_change
  exact inv_broadcastLoop now f (some u) _ _ _ (inv_of_same_subs rfl rfl hI)

/-- Every reachable registry state satisfies the invariant. -/
theorem reachable_inv {s : SysState} (h : Reachable s) : Inv s := by
  induction h with
  | init b => exact inv_init b
  | connect now f ws u _ ih => exact inv_connect ih now f ws u
  | subscribe u c _ ih => exact inv_subscribe ih u c
  | unsubscribe u c _ ih => exact inv_unsubscribe ih u c
  | disconnect now u _ ih => exact inv_disconnect ih now u

/-! ## Behaviour of the send loop -/

section BroadcastLoop

variable (now : Nat) (f : Int → Bool) (e : Option Int)

/-- No step of the loop ever adds a connection: once absent, always absent. -/
theorem loop_ac_none (x : Int) :
    ∀ (L : List Int) (st : SysState) (acc : List (Int × Int)),
      dictGet st.active_connections x = none →
      dictGet (broadcastLoop now f e st acc L).1.active_connections x = none := by
  intro L
  induction L with
  | nil => intro st acc hx; simpa [broadcastLoop] using hx
  | cons u rest ih =>
      intro st acc hx
      rw [broadcastLoop]
      by_cases he : e = some u
      · rw [if_pos he]; exact ih st acc hx
      · rw [if_neg he]
        cases hg : dictGet st.active_connections u with
        | none => exact ih st acc hx
        | some h =>
            by_cases hf : f u
            · simp only [hf, if_true]
              refine ih _ acc ?_
              by_cases hxu : x = u
              · subst hxu; exact disconnect_ac_self st now x
              · rw [disconnect_ac_ne st now hxu]; exact hx
            · simp only [hf, if_false]
              exact ih st _ hx

/-- A delivered pair was either already accumulated or carries the handle
registered for that user at the start of the loop. -/
theorem loop_deliver_mem :
    ∀ (L : List Int) (st : SysState) (acc : List (Int × Int)) (p : Int × Int),
      p ∈ (broadcastLoop now f e st acc L).2 →
      p ∈ acc ∨ dictGet st.active_connections p.1 = some p.2 := by
  intro L
  induction L with
  | nil => intro st acc p hp; exact Or.inl (by simpa [broadcastLoop] using hp)
  | cons u rest ih =>
      intro st acc p hp
      rw [broadcastLoop] at hp
      by_cases he : e = some u
      · rw [if_pos he] at hp; exact ih st acc p hp
      · rw [if_neg he] at hp
        cases hg : dictGet st.active_connections u with
        | none => rw [hg] at hp; exact ih st acc p hp
        | some h =>
            rw [hg] at hp
            by_cases hf : f u
            · simp only [hf, if_true] at hp
              rcases ih _ acc p hp with hacc | hcur
              · exact Or.inl hacc
              · exact Or.inr (disconnect_ac_some hcur)
            · simp only [hf, if_false] at hp
              rcases ih st _ p hp with hacc | hcur
              · rcases List.mem_append.mp hacc with hl | hr
                · exact Or.inl hl
                · have : p = (u, h) := by simpa using hr
                  subst this
                  exact Or.inr hg
              · exact Or.inr hcur

/-- The excluded user's connection entry is never touched by the loop. -/
theorem loop_excluded_ac (x : Int) (hx : e = some x) :
    ∀ (L : List Int) (st : SysState) (acc : List (Int × Int)),
      dictGet (broadcastLoop now f e st acc L).1.active_connections x
        = dictGet st.active_connections x := by
  intro L
  induction L with
  | nil => intro st acc; simp [broadcastLoop]
  | cons u rest ih =>
      intro st acc
      rw [broadcastLoop]
      by_cases he : e = some u
      · rw [if_pos he]; exact ih st acc
      · rw [if_neg he]
        have hxu : x ≠ u := fun hh => he (hh ▸ hx)
        cases hg : dictGet st.active_connections u with
        | none => exact ih st acc
        | some h =>
            by_cases hf : f u
            · simp only [hf, if_true]
              rw [ih _ acc, disconnect_ac_ne st now hxu]
            · simp only [hf, if_false]
              exact ih st _

/-- A user who appears in the snapshot, is not excluded, and whose send
raises, ends the loop with no registered connection. -/
theorem loop_fail_disconnects (x : Int) (hex : e ≠ some x) (hfx : f x = true) :
    ∀ (L : List Int) (st : SysState) (acc : List (Int × Int)),
      x ∈ L →
      dictGet (broadcastLoop now f e st acc L).1.active_connections x = none := by
  intro L
  induction L with
  | nil => intro st acc hm; exact absurd hm (List.not_mem_nil x)
  | cons u rest ih =>
      intro st acc hm
      rw [broadcastLoop]
      by_cases he : e = some u
      · rw [if_pos he]
        have hxu : x ≠ u := fun hh => hex (hh ▸ he)
        have : x ∈ rest := by
          rcases List.mem_cons.mp hm with hh | hh
          · exact absurd hh hxu
          · exact hh
        exact ih st acc this
      · rw [if_neg he]
        cases hg : dictGet st.active_connections u with
        | none =>
            rcases List.mem_cons.mp hm with hh | hh
            · subst hh; exact loop_ac_none now f e x rest st acc hg
            · exact ih st acc hh
        | some h =>
            by_cases hf : f u
            · simp only [hf, if_true]
              rcases List.mem_cons.mp hm with hh | hh
              · subst hh
                exact loop_ac_none now f e x rest _ acc (disconnect_ac_self st now x)
              · exact ih _ acc hh
            · simp only [hf, if_false]
              rcases List.mem_cons.mp hm with hh | hh
              · subst hh; rw [hfx] at hf; exact absurd rfl hf
              · exact ih st _ hh

/-- Accumulated deliveries persist to the end of the loop. -/
theorem loop_acc_mono :
    ∀ (L : List Int) (st : SysState) (acc : List (Int × Int)) (p : Int × Int),
      p ∈ acc → p ∈ (broadcastLoop now f e st acc L).2 := by
  intro L
  induction L with
  | nil => intro st acc p hp; simpa [broadcastLoop] using hp
  | cons u rest ih =>
      intro st acc p hp
      rw [broadcastLoop]
      by_cases he : e = some u
      · rw [if_pos he]; exact ih st acc p hp
      · rw [if_neg he]
        cases hg : dictGet st.active_connections u with
        | none => exact ih st acc p hp
        | some h =>
            by_cases hf : f u
            · simp only [hf, if_true]; exact ih _ acc p hp
            · simp only [hf, if_false]
              exact ih st _ p (List.mem_append.mpr (Or.inl hp))

/-- A non-excluded recipient whose send does not raise is delivered to on
the handle it had when the loop started. -/
theorem loop_nofail_delivers (x h : Int) (hex : e ≠ some x) (hfx : f x = false) :
    ∀ (L : List Int) (st : SysState) (acc : List (Int × Int)),
      x ∈ L →
      dictGet st.active_connections x = some h →
      (x, h) ∈ (broadcastLoop now f e st acc L).2 := by
  intro L
  induction L with
  | nil => intro st acc hm; exact absurd hm (List.not_mem_nil x)
  | cons u rest ih =>
      intro st acc hm hx
      rw [broadcastLoop]
      by_cases he : e = some u
      · rw [if_pos he]
        have hxu : x ≠ u := fun hh => hex (hh ▸ he)
        have : x ∈ rest := by
          rcases List.mem_cons.mp hm with hh | hh
          · exact absurd hh hxu
          · exact hh
        exact ih st acc this hx
      · rw [if_neg he]
        cases hg : dictGet st.active_connections u with
        | none =>
            have hxu : x ≠ u := by
              intro hh; subst hh; rw [hx] at hg; exact Option.noConfusion hg
            have : x ∈ rest := by
              rcases List.mem_cons.mp hm with hh | hh
              · exact absurd hh hxu
              · exact hh
            exact ih st acc this hx
        | some hu =>
            by_cases hf : f u
            · simp only [hf, if_true]
              have hxu : x ≠ u := by
                intro hh; subst hh; rw [hfx] at hf; exact Bool.noConfusion hf
              have hmem : x ∈ rest := by
                rcases List.mem_cons.mp hm with hh | hh
                · exact absurd hh hxu
                · exact hh
              refine ih _ acc hmem ?_
              rw [disconnect_ac_ne st now hxu]; exact hx
            · simp only [hf, if_false]
              rcases List.mem_cons.mp hm with hh | hh
              · subst hh
                have : hu = h := by rw [hx] at hg; exact (Option.some_inj.mp hg).symm
                subst this
                exact loop_acc_mono now f e rest st _ (x, hu)
                  (List.mem_append.mpr (Or.inr (List.mem_singleton.mpr rfl)))
              · exact ih st _ hh hx

/-- With a send oracle that never raises, the loop leaves the state intact
and delivers to exactly the non-excluded connected snapshot members, in
snapshot order. -/
theorem loop_nofail (hf : ∀ y, f y = false) :
    ∀ (L : List Int) (st : SysState) (acc : List (Int × Int)),
      (broadcastLoop now f e st acc L).1 = st ∧
      ((broadcastLoop now f e st acc L).2).map Prod.fst
        = acc.map Prod.fst
          ++ L.filter (fun y => decide (e ≠ some y) && (dictGet st.active_connections y).isSome) := by
  intro L
  induction L with
  | nil => intro st acc; simp [broadcastLoop]
  | cons u rest ih =>
      intro st acc
      by_cases he : e = some u
      · have hred : broadcastLoop now f e st acc (u :: rest)
            = broadcastLoop now f e st acc rest := by
          rw [broadcastLoop, if_pos he]
        have hfilter :
            (u :: rest).filter (fun y => decide (e ≠ some y) && (dictGet st.active_connections y).isSome)
              = rest.filter (fun y => decide (e ≠ some y) && (dictGet st.active_connections y).isSome) := by
          simp [List.filter_cons, he]
        rw [hred, hfilter]
        exact ih st acc
      · cases hg : dictGet st.active_connections u with
        | none =>
            have hred : broadcastLoop now f e st acc (u :: rest)
                = broadcastLoop now f e st acc rest := by
              rw [broadcastLoop, if_neg he, hg]
            have hfilter :
                (u :: rest).filter (fun y => decide (e ≠ some y) && (dictGet st.active_connections y).isSome)
                  = rest.filter (fun y => decide (e ≠ some y) && (dictGet st.active_connections y).isSome) := by
              simp [List.filter_cons, hg]
            rw [hred, hfilter]
            exact ih st acc
        | some h =>
            have hred : broadcastLoop now f e st acc (u :: rest)
                = broadcastLoop now f e st (acc ++ [(u, h)]) rest := by
              rw [broadcastLoop, if_neg he, hg]
              simp [hf u]
            have hfilter :
                (u :: rest).filter (fun y => decide (e ≠ some y) && (dictGet st.active_connections y).isSome)
                  = u :: rest.filter (fun y => decide (e ≠ some y) && (dictGet st.active_connections y).isSome) := by
              simp [List.filter_cons, he, hg]
            rw [hred, hfilter]
            refine ⟨(ih st (acc ++ [(u, h)])).1, ?_⟩
            rw [(ih st (acc ++ [(u, h)])).2]
            simp

end BroadcastLoop

/-- After `connect`, the connecting user's registered handle is exactly the
new websocket: the presence broadcast excludes that user, so no inline
disconnect can remove the fresh entry. -/
theorem connect_ac_self (s : SysState) (now : Nat) (f : Int → Bool) (ws u : Int) :
    dictGet (connect s now f ws u).active_connections u = some ws := by
  unfold connect broadcast_presence_change
  rw [loop_excluded_ac now f (some u) u rfl]
  exact dictGet_set_self _ _ _

/-! ## Behaviour of the presence store writes -/

theorem set_user_offline_redis_get {p : PresenceState} (hr : p.use_redis = true)
    (now : Nat) (u : Int) :
    dictGet (set_user_offline p now u).redis_store u
        = some ({ online := false, last_seen := some now, connected_at := none }, 86400) ∧
    get_user_presence (set_user_offline p now u) u
        = { online := false, last_seen := some now, connected_at := none } := by
  have hred : set_user_offline p now u
      = { p with
          redis_store := dictSet p.redis_store u
            ({ online := false, last_seen := some now, connected_at := none }, 86400),
          redis_online := setDiscard p.redis_online u } := by
    unfold set_user_offline
    rw [if_pos hr]
  rw [hred]
  refine ⟨dictGet_set_self _ _ _, ?_⟩
  unfold get_user_presence
  rw [if_pos hr, dictGet_set_self]

theorem set_user_offline_mem_get {p : PresenceState} (hm : p.use_redis = false)
    {u : Int} {r : PresenceRecord} (hg : dictGet p.mem_store u = some r) (now : Nat) :
    get_user_presence (set_user_offline p now u) u
        = { r with online := false, last_seen := some now } := by
  have hred : set_user_offline p now u
      = { p with
          mem_store := dictSet p.mem_store u
            { r with online := false, last_seen := some now } } := by
    unfold set_user_offline
    rw [if_neg (by simp [hm]), hg]
  rw [hred]
  unfold get_user_presence
  rw [if_neg (by simp [hm]), dictGet_set_self]
  rfl

theorem set_user_offline_mem_absent {p : PresenceState} (hm : p.use_redis = false)
    {u : Int} (hg : dictGet p.mem_store u = none) (now : Nat) :
    set_user_offline p now u = p := by
  unfold set_user_offline
  rw [if_neg (by simp [hm]), hg]

/-- After `set_user_offline`, the user always reads back as offline,
whichever backend is in use. -/
theorem offline_not_online (p : PresenceState) (now : Nat) (u : Int) :
    is_user_online (set_user_offline p now u) u = false := by
  by_cases hr : p.use_redis = true
  · unfold is_user_online
    rw [(set_user_offline_redis_get hr now u).2]
  · have hm : p.use_redis = false := by simpa using hr
    cases hg : dictGet p.mem_store u with
    | some r =>
        unfold is_user_online
        rw [set_user_offline_mem_get hm hg now]
    | none =>
        unfold is_user_online
        rw [set_user_offline_mem_absent hm hg now]
        unfold get_user_presence
        rw [if_neg (by simp [hm]), hg]
        rfl

/-! ## Demonstration states used by witnesses and counterexamples -/

/-- Users 1 (handle 11) and 2 (handle 22) connected, both subscribed to
channel 10, no send failures. -/
def readDemoState : SysState :=
  subscribe_to_channel
    (subscribe_to_channel
      (connect (connect (initState false) 0 noFail 11 1) 1 noFail 22 2) 1 10)
    2 10

/-- Users 3, 4, 5, 6 subscribed to channel 7; 3, 4, 5 connected (handles
33, 44, 55), 6 never connected. -/
def newMsgDemoState : SysState :=
  connect
    (connect
      (connect
        (subscribe_to_channel
          (subscribe_to_channel
            (subscribe_to_channel (subscribe_to_channel (initState false) 3 7) 4 7) 5 7)
          6 7)
        0 noFail 33 3)
      1 noFail 44 4)
    2 noFail 55 5

/-- Users 8 (handle 88) and 9 (handle 99) connected and subscribed to
channel 1. -/
def pruneDemoState : SysState :=
  connect
    (connect (subscribe_to_channel (subscribe_to_channel (initState false) 8 1) 9 1)
      0 noFail 88 8)
    1 noFail 99 9

/-- Send oracle under which only the send to user 9 raises. -/
def failNine : Int → Bool := fun v => v == 9

/-- User 5 subscribed to channel 1 before connecting. -/
def dupConnState : SysState :=
  subscribe_to_channel (initState false) 5 1

/-! ## Claims -/

/-- C1: the claim says the read-receipt broadcast excludes the user who
performed the read and that the reader's connection receives nothing.
The code instead passes `message.sender_id` as the excluded user
(`chat.py` line 201), while the mark-read endpoint takes no reader
identity at all.  Evaluated at the failing input — message 7 with
sender 1 in channel 10, subscribers {1, 2} both connected, user 2 (the
reader) having invoked mark-read — the lone delivery of the
`read_receipt` frame goes to user 2 on handle 22, i.e. the reader
receives the frame, and the frame's `user_id` field names the sender. -/
theorem c1_read_receipt_delivered_to_reader :
    (mark_message_read readDemoState 5 noFail
        { id := 7, sender_id := 1, channel_id := 10, is_read := false }).2.2.1
      = [(2, 22)] ∧
    (mark_message_read readDemoState 5 noFail
        { id := 7, sender_id := 1, channel_id := 10, is_read := false }).2.2.2
      = { message_id := 7, user_id := 1, timestamp := 5 } := by
  constructor <;> rfl

/-- C2: in every state of the Connection Registry reachable by any
sequence of connect, subscribe, unsubscribe and disconnect operations,
the `channel_subscriptions` and `user_subscriptions` indices are mutual
inverses: `u ∈ channel_subscriptions[c]` iff `c ∈ user_subscriptions[u]`. -/
theorem c2_subscription_indices_mutual_inverses (s : SysState) (h : Reachable s) :
    Inv s :=
  reachable_inv h

/-- Witness for C2 at a concrete reachable state. -/
theorem c2_subscription_indices_witness :
    Inv (subscribe_to_channel (initState false) 1 10) :=
  c2_subscription_indices_mutual_inverses _
    (Reachable.subscribe 1 10 (Reachable.init false))

/-- C3: when no send raises, a NewMessage broadcast leaves the state
unchanged and the users receiving the `new_message` frame are exactly
the channel's subscribers minus the message's sender, restricted to
users with an active connection; a subscriber without a connection is
skipped with no error (the broadcast is a total function and the state
is returned intact). -/
theorem c3_new_message_recipients (s : SysState) (now : Nat) (f : Int → Bool)
    (md : MsgPayload) (c sid : Int)
    (hsid : md.sender_id = some sid) (hf : ∀ y, f y = false) :
    (broadcast_new_message s now f md c).1 = s ∧
    ((broadcast_new_message s now f md c).2).map Prod.fst
      = (subsOf s c).filter (fun y => decide (y ≠ sid) && is_user_connected s y) := by
  unfold broadcast_new_message broadcast_to_channel
  rw [hsid]
  cases hg : dictGet s.channel_subscriptions c with
  | none =>
      constructor
      · rfl
      · simp [subsOf, hg]
  | some subs =>
      have hsubs : subsOf s c = subs := by simp [subsOf, hg]
      have hl := loop_nofail now f (some sid) hf subs s []
      refine ⟨hl.1, ?_⟩
      show ((broadcastLoop now f (some sid) s [] subs).2).map Prod.fst = _
      rw [hl.2, hsubs]
      simp only [List.map_nil, List.nil_append]
      refine List.filter_congr ?_
      intro y _
      have hiff : ((some sid : Option Int) ≠ some y) ↔ (y ≠ sid) :=
        not_congr ⟨fun hsome => (Option.some_inj.mp hsome).symm, fun hy => by rw [hy]⟩
      rw [decide_eq_decide.mpr hiff]
      rfl

/-- Witness for C3 on the spec's scenario: subscribers {3,4,5,6} with
sender 3, users 3,4,5 connected and 6 not. -/
theorem c3_new_message_witness :
    (broadcast_new_message newMsgDemoState 9 noFail { sender_id := some 3 } 7).1
      = newMsgDemoState ∧
    ((broadcast_new_message newMsgDemoState 9 noFail { sender_id := some 3 } 7).2).map Prod.fst
      = (subsOf newMsgDemoState 7).filter
          (fun y => decide (y ≠ 3) && is_user_connected newMsgDemoState y) :=
  c3_new_message_recipients newMsgDemoState 9 noFail { sender_id := some 3 } 7 3
    rfl (fun _ => rfl)

/-- C4: registering a second connection for an already-connected user
overwrites the dict entry — the registry maps each user to exactly one
handle, the newer one — and any later broadcast that delivers to that
user delivers on the second handle. -/
theorem c4_second_connection_wins (s : SysState) (n1 n2 n3 : Nat)
    (f1 f2 f3 : Int → Bool) (w1 w2 u c : Int) (e : Option Int) (p : Int × Int)
    (hp : p ∈ (broadcast_to_channel (connect (connect s n1 f1 w1 u) n2 f2 w2 u)
                n3 f3 c e).2)
    (hu : p.1 = u) :
    dictGet (connect (connect s n1 f1 w1 u) n2 f2 w2 u).active_connections u
      = some w2 ∧ p.2 = w2 := by
  have hacw : dictGet (connect (connect s n1 f1 w1 u) n2 f2 w2 u).active_connections u
      = some w2 := connect_ac_self _ n2 f2 w2 u
  refine ⟨hacw, ?_⟩
  unfold broadcast_to_channel at hp
  cases hg : dictGet (connect (connect s n1 f1 w1 u) n2 f2 w2 u).channel_subscriptions c with
  | none => rw [hg] at hp; simp at hp
  | some subs =>
      rw [hg] at hp
      rcases loop_deliver_mem n3 f3 e subs _ [] p hp with habs | hcur
      · simp at habs
      · rw [hu, hacw] at hcur
        exact (Option.some_inj.mp hcur).symm

/-- Witness for C4: user 5 connects twice (handles 10 then 20) and the
broadcast delivery (5, 20) carries the second handle. -/
theorem c4_second_connection_witness :
    dictGet (connect (connect dupConnState 0 noFail 10 5) 1 noFail 20 5).active_connections 5
      = some 20 ∧ ((5, 20) : Int × Int).2 = 20 := by
  have t := c4_second_connection_wins dupConnState 0 1 2 noFail noFail noFail 10 20 5 1
    none (5, 20) (by decide) rfl
  exact ⟨t.1, t.2⟩

/-- C5: if the send to a connected, non-excluded subscriber u raises,
the failure is absorbed by the loop (the broadcast is a total function:
no error reaches the broadcaster), u is disconnected inline — afterwards
`is_user_connected u` is false and u is absent from
`get_connected_users` — and every other non-excluded subscriber whose
send does not raise is still delivered to on its original handle. -/
theorem c5_dead_connection_pruned (s : SysState) (now : Nat) (f : Int → Bool)
    (c : Int) (e : Option Int) (u v hv : Int)
    (hu_sub : u ∈ subsOf s c) (hu_ex : e ≠ some u)
    (hu_conn : is_user_connected s u = true) (hu_fail : f u = true)
    (hv_sub : v ∈ subsOf s c) (hv_ex : e ≠ some v) (hv_fail : f v = false)
    (hv_conn : dictGet s.active_connections v = some hv) :
    is_user_connected (broadcast_to_channel s now f c e).1 u = false ∧
    u ∉ get_connected_users (broadcast_to_channel s now f c e).1 ∧
    (v, hv) ∈ (broadcast_to_channel s now f c e).2 := by
  unfold broadcast_to_channel
  cases hg : dictGet s.channel_subscriptions c with
  | none => simp [subsOf, hg] at hu_sub
  | some subs =>
      have hsubs : subsOf s c = subs := by simp [subsOf, hg]
      rw [hsubs] at hu_sub hv_sub
      have h1 := loop_fail_disconnects now f e u hu_ex hu_fail subs s [] hu_sub
      have h3 := loop_nofail_delivers now f e v hv hv_ex hv_fail subs s [] hv_sub hv_conn
      refine ⟨?_, ?_, h3⟩
      · show (dictGet (broadcastLoop now f e s [] subs).1.active_connections u).isSome = false
        rw [h1]
        rfl
      · exact (dictGet_eq_none_iff _ u).mp h1

/-- Witness for C5 on the spec's scenario: delivering to user 9 raises,
so afterwards 9 is not connected and absent from the connected list,
while user 8 still receives on handle 88. -/
theorem c5_dead_connection_witness :
    is_user_connected (broadcast_to_channel pruneDemoState 2 failNine 1 none).1 9 = false ∧
    (9 : Int) ∉ get_connected_users (broadcast_to_channel pruneDemoState 2 failNine 1 none).1 ∧
    ((8 : Int), (88 : Int)) ∈ (broadcast_to_channel pruneDemoState 2 failNine 1 none).2 :=
  c5_dead_connection_pruned pruneDemoState 2 failNine 1 none 9 8 88
    (by decide) (by decide) (by decide) (by decide)
    (by decide) (by decide) (by decide) (by decide)

/-- C6 counterexample: in the in-memory fallback (`use_redis = false`),
`set_user_offline` on a user with no existing record writes nothing — the
store still holds no record for user 7 and `get_user_presence` returns
`last_seen = none` (absent), contradicting the claim that after
`setOffline(u)` the store holds a record with a present `last_seen`
whether or not one already existed. -/
theorem c6_offline_fresh_user_counterexample :
    dictGet (set_user_offline (initPresence false) 5 7).mem_store 7 = none ∧
    (get_user_presence (set_user_offline (initPresence false) 5 7) 7).last_seen = none := by
  constructor <;> rfl

/-- C6 amended: under the Redis backend, `set_user_offline(u)`
unconditionally writes the record `{online: false, last_seen: now}`
(TTL 86400) so `get_user_presence(u)` returns it; in the in-memory
fallback this holds only when a record for u already exists, in which
case its `online`/`last_seen` fields are updated in place. -/
theorem c6_offline_record_amended (p : PresenceState) (now : Nat) (u : Int) :
    (p.use_redis = true →
      dictGet (set_user_offline p now u).redis_store u
          = some ({ online := false, last_seen := some now, connected_at := none }, 86400) ∧
      get_user_presence (set_user_offline p now u) u
          = { online := false, last_seen := some now, connected_at := none }) ∧
    (p.use_redis = false → ∀ r : PresenceRecord, dictGet p.mem_store u = some r →
      get_user_presence (set_user_offline p now u) u
          = { r with online := false, last_seen := some now }) := by
  constructor
  · intro hr
    exact set_user_offline_redis_get hr now u
  · intro hm r hg
    exact set_user_offline_mem_get hm hg now

/-- Witness for C6 amended: a fresh Redis-backed store, and an in-memory
store where user 7 was first set online at time 3 and then offline at
time 5. -/
theorem c6_offline_record_witness :
    get_user_presence (set_user_offline (initPresence true) 5 7) 7
        = { online := false, last_seen := some 5, connected_at := none } ∧
    get_user_presence (set_user_offline (set_user_online (initPresence false) 3 7) 5 7) 7
        = { online := false, last_seen := some 5, connected_at := some 3 } := by
  constructor
  · exact ((c6_offline_record_amended (initPresence true) 5 7).1 rfl).2
  · exact (c6_offline_record_amended (set_user_online (initPresence false) 3 7) 5 7).2
      rfl { online := true, last_seen := some 3, connected_at := some 3 } rfl

/-- C7: an inbound frame whose `type` is none of `subscribe_channel`,
`unsubscribe_channel`, `ping` falls through every branch of the dispatch:
no outbound frame is produced, the registry and presence state are
returned unchanged, and no disconnect occurs (the receive loop continues,
so the connection stays open). -/
theorem c7_unknown_frame_ignored (s : SysState) (now : Nat) (u : Int) (fr : InFrame)
    (h1 : fr.ftype ≠ some "subscribe_channel")
    (h2 : fr.ftype ≠ some "unsubscribe_channel")
    (h3 : fr.ftype ≠ some "ping") :
    handle_frame s now u fr = (s, []) := by
  unfold handle_frame
  rw [if_neg h1, if_neg h2, if_neg h3]

/-- Witness for C7 at the spec's concrete frame `{"type":"frobnicate"}`. -/
theorem c7_unknown_frame_witness :
    handle_frame (initState true) 0 1 { ftype := some "frobnicate", channel_id := none }
      = (initState true, []) :=
  c7_unknown_frame_ignored _ _ _ _ (by decide) (by decide) (by decide)

/-- C8 counterexample: `subscribe_to_channel` invoked with the negative
identifiers user −1 and channel −2 does not fail fast — the translation
is a total function because the source has no validation or raise path —
and it silently mutates the registry: the edge (−1, −2) is recorded in
both indices, contradicting the claim that structurally invalid
identifiers are rejected at the boundary instead of mutating state. -/
theorem c8_negative_id_counterexample :
    ((-1 : Int) ∈ subsOf (subscribe_to_channel (initState true) (-1) (-2)) (-2)) ∧
    ((-2 : Int) ∈ chansOf (subscribe_to_channel (initState true) (-1) (-2)) (-1)) := by
  decide

/-- C8 amended: no registry mutation validates its identifiers — for
every integer user and channel id, negative included, subscribe records
the edge in both indices, unsubscribe removes it, and connect stores the
handle; no core operation has an error path that raises to its caller. -/
theorem c8_no_validation_amended (s : SysState) (u c w : Int) (now : Nat)
    (f : Int → Bool) :
    u ∈ subsOf (subscribe_to_channel s u c) c ∧
    c ∈ chansOf (subscribe_to_channel s u c) u ∧
    u ∉ subsOf (unsubscribe_from_channel s u c) c ∧
    dictGet (connect s now f w u).active_connections u = some w := by
  refine ⟨?_, ?_, ?_, connect_ac_self s now f w u⟩
  · rw [subsOf_subscribe, if_pos rfl]
    exact List.mem_insert_self u _
  · rw [chansOf_subscribe, if_pos rfl]
    exact List.mem_insert_self c _
  · rw [subsOf_unsubscribe, if_pos rfl]
    intro hmem
    exact (mem_setDiscard.mp hmem).2 rfl

/-- C9: an inbound subscribe/unsubscribe frame with `channel_id = 0` is
handled exactly like one with `channel_id` missing — the truthiness
guard `if channel_id:` rejects 0 — so no subscription edge is added or
removed and no frame is emitted. -/
theorem c9_channel_zero_like_missing (s : SysState) (now : Nat) (u : Int) :
    handle_frame s now u { ftype := some "subscribe_channel", channel_id := some 0 }
      = (s, []) ∧
    handle_frame s now u { ftype := some "subscribe_channel", channel_id := none }
      = (s, []) ∧
    handle_frame s now u { ftype := some "unsubscribe_channel", channel_id := some 0 }
      = (s, []) ∧
    handle_frame s now u { ftype := some "unsubscribe_channel", channel_id := none }
      = (s, []) := by
  refine ⟨?_, ?_, ?_, ?_⟩ <;> rfl

/-- C10 counterexample: with the in-memory presence fallback,
disconnecting the never-connected user 9 performs the `set_user_offline`
call but that call writes nothing for a user with no prior record — the
presence store still holds no record for 9, contradicting the claim that
a never-connected user gains an offline presence record. -/
theorem c10_never_connected_counterexample :
    dictGet (disconnect (initState false) 5 9).presence.mem_store 9 = none := by
  rfl

/-- C10 amended: for every reachable state, `disconnect(u)` in one step
removes u's connection handle, removes u from every channel's subscriber
set, deletes u's reverse-index entry, and performs the presence
set-offline call unconditionally (even when u has no active connection),
after which u reads back as offline; under the Redis backend this call
also writes an offline record `{online: false, last_seen: now}` even for
a never-connected u, while the in-memory fallback writes a record only
if one already exists. -/
theorem c10_disconnect_cleanup_amended (s : SysState) (now : Nat) (u : Int)
    (h : Reachable s) :
    dictGet (disconnect s now u).active_connections u = none ∧
    (∀ c, u ∉ subsOf (disconnect s now u) c) ∧
    dictGet (disconnect s now u).user_subscriptions u = none ∧
    is_user_online (disconnect s now u).presence u = false ∧
    (s.presence.use_redis = true →
      get_user_presence (disconnect s now u).presence u
        = { online := false, last_seen := some now, connected_at := none }) := by
  have hI := reachable_inv h
  refine ⟨disconnect_ac_self s now u, ?_, disconnect_us_self s now u, ?_, ?_⟩
  · intro c hmem
    rw [subsOf_disconnect] at hmem
    exact hmem.2 ⟨rfl, (hI u c).mp hmem.1⟩
  · rw [disconnect_presence]
    exact offline_not_online s.presence now u
  · intro hr
    rw [disconnect_presence]
    exact (set_user_offline_redis_get hr now u).2

/-- Witness for C10 amended at a concrete reachable Redis-backed state:
user 4 subscribed to channel 20 and then disconnected at time 9. -/
theorem c10_disconnect_cleanup_witness :
    dictGet (disconnect (subscribe_to_channel (initState true) 4 20) 9 4).active_connections 4
      = none ∧
    (4 : Int) ∉ subsOf (disconnect (subscribe_to_channel (initState true) 4 20) 9 4) 20 ∧
    dictGet (disconnect (subscribe_to_channel (initState true) 4 20) 9 4).user_subscriptions 4
      = none ∧
    is_user_online (disconnect (subscribe_to_channel (initState true) 4 20) 9 4).presence 4
      = false ∧
    get_user_presence (disconnect (subscribe_to_channel (initState true) 4 20) 9 4).presence 4
      = { online := false, last_seen := some 9, connected_at := none } := by
  have t := c10_disconnect_cleanup_amended (subscribe_to_channel (initState true) 4 20) 9 4
    (Reachable.subscribe 4 20 (Reachable.init true))
  exact ⟨t.1, t.2.1 20, t.2.2.1, t.2.2.2.1, t.2.2.2.2 rfl⟩

end ChatCore
